import Mathlib

/-!
Verification development for the `SmartMarketScanner` funding-rate arbitrage
engine (`market_scanner.py`).

Modelling conventions:
* Python floats are modelled as exact rationals (`ℚ`); float literals such as
  `0.0002` are translated to the rationals they denote in the source text,
  written as explicit fractions (`2/10000`) so that concrete witnesses can be
  checked by kernel reduction.
* Per-symbol scanning (`_scan_single_symbol`) is a pure function of a
  `ScanEnv`: the venue responses gathered for that symbol.  The
  nondeterministic completion order of the concurrent rate fan-out (Python's
  `as_completed` loop building the `rates` dict) is modelled by the order of
  the `fundingResults` list, so every theorem holds for every completion
  order.
* Exceptions are modelled with `Except String`; a Python `try/except` that
  swallows an error and returns `None` becomes `Except.toOption`.
* Python's `sorted` (a stable sort) is modelled with `List.insertionSort`,
  which is also stable, with the corresponding `≤` relation on sort keys.
* `numpy.std` returns a square root, which is irrational in general; the
  history-tracker volatility is therefore modelled at the *squared* level
  (`npStdSq w` is `np.std(w) ** 2`), and statements about standard deviations
  are phrased through `Real.sqrt` of those squares.
* Fields `funding_analysis` (additive enrichment, exception-contained, and
  `None` in every configuration whose code is in this repository since the
  `funding_analyzer` module is external) and `timestamp` (wall-clock) of the
  result dict are not modelled; no claim mentions them.  The history-window
  side effect of `_scan_single_symbol` (lines 354–360) is modelled by the
  standalone `recordDiff` / `sigmaSq` functions below.
-/

/- Rational arithmetic is kernel-computable but shipped `@[irreducible]`;
restore reducibility locally so concrete witnesses evaluate by `decide`. -/
attribute [local semireducible] Rat.add Rat.mul Rat.inv Rat.sub

/-- Result of `_fetch_funding_rate` on success: the signed funding rate and
the settlement interval in hours (already converted with `int(...)` by the
source). -/
structure FundingInfo where
  rate : ℚ
  interval_hours : ℤ
deriving Repr, DecidableEq

/-- Result of `_fetch_orderbook_price` on success: best price, its volume and
the cumulative top-5 notional depth. -/
structure BookTop where
  price : ℚ
  volume : ℚ
  depth : ℚ
deriving Repr, DecidableEq

/-- The opportunity dict returned by `_scan_single_symbol` (numeric fields;
see the module comment for the omitted `sigma`, `funding_analysis` and
`timestamp` entries). `spread`, `fees` and `total_cost` are stored ×100
(percent), exactly as in the source. -/
structure Opportunity where
  symbol : String
  long_ex : String
  short_ex : String
  long_price : ℚ
  short_price : ℚ
  apr : ℚ
  rate_diff : ℚ
  funding_interval : ℤ
  times_per_day : ℚ
  spread : ℚ
  fees : ℚ
  total_cost : ℚ
  breakeven_days : ℚ
  depth : ℚ
deriving Repr, DecidableEq

/-- `FEE_SCHEDULE` class constant: venue → (maker, taker), VIP0 rates. -/
def FEE_SCHEDULE : String → Option (ℚ × ℚ)
  | "binance" => some ((2/10000 : ℚ), (5/10000 : ℚ))
  | "bybit" => some ((1/10000 : ℚ), (6/10000 : ℚ))
  | "okx" => some ((2/10000 : ℚ), (5/10000 : ℚ))
  | _ => none

/-- The fallback pair maker 0.0002, taker 0.0005 used by
`_calculate_fees` when a venue is missing from `FEE_SCHEDULE`. -/
def feeDefault : ℚ × ℚ := ((2/10000 : ℚ), (5/10000 : ℚ))

/-- `_calculate_fees(long_ex, short_ex, assume_maker)`: mixed
open-taker/close-maker composition when `assume_maker`, all-taker otherwise. -/
def calculate_fees (long_ex short_ex : String) (assume_maker : Bool) : ℚ :=
  let long_fee := (FEE_SCHEDULE long_ex).getD feeDefault
  let short_fee := (FEE_SCHEDULE short_ex).getD feeDefault
  if assume_maker then
    long_fee.2 + short_fee.2 + long_fee.1 + short_fee.1
  else
    long_fee.2 * 2 + short_fee.2 * 2

/-- Lines 354–358: append the differential to the symbol's history window and
pop the oldest entry once the length exceeds 50. -/
def recordDiff (w : List ℚ) (d : ℚ) : List ℚ :=
  let h := w ++ [d]
  if 50 < h.length then h.drop 1 else h

/-- `np.std(l) ** 2`: the population (ddof = 0) variance, i.e. the mean of the
squared deviations from the mean. -/
def npStdSq (l : List ℚ) : ℚ :=
  let n : ℚ := l.length
  let mean := l.sum / n
  (l.map (fun x => (x - mean) ^ 2)).sum / n

/-- Line 360 squared: `sigma = np.std(history) if len(history) > 5 else 0.0001`;
`sigmaSq w` is that `sigma ** 2`, so the code's volatility is
`Real.sqrt (sigmaSq w)`. -/
def sigmaSq (w : List ℚ) : ℚ :=
  if 5 < w.length then npStdSq w else (1/10000 : ℚ) ^ 2

/-- Modelled from the spec (§4.4): the *sample* (Bessel-corrected, ddof = 1)
variance, whose square root is the sample standard deviation the spec says
`volatility` returns.  Used only to compare the spec's formula with the
code's `np.std`. -/
def sampleVariance_spec (l : List ℚ) : ℚ :=
  let n : ℚ := l.length
  let mean := l.sum / n
  (l.map (fun x => (x - mean) ^ 2)).sum / (n - 1)

/-- The venue data gathered for one symbol during a scan cycle:
`fundingResults` pairs each connected exchange with the outcome of
`_fetch_funding_rate` (`none` on failure), listed in the completion order of
the concurrent fan-out; `book ex isLong` is the outcome of
`_fetch_orderbook_price(ex, symbol, 'long'/'short')`. -/
structure ScanEnv where
  fundingResults : List (String × Option FundingInfo)
  book : String → Bool → Option BookTop

/-- The `rates` dict of `_scan_single_symbol`, as an association list in
completion order. -/
def ratesOf (env : ScanEnv) : List (String × ℚ) :=
  env.fundingResults.filterMap (fun p => p.2.map (fun fi => (p.1, fi.rate)))

/-- The `intervals` dict of `_scan_single_symbol`. -/
def intervalsOf (env : ScanEnv) : List (String × ℤ) :=
  env.fundingResults.filterMap (fun p => p.2.map (fun fi => (p.1, fi.interval_hours)))

/-- Lines 329–332: spread cost, with the `0.01` fallback for a non-positive
short price. -/
def spreadCost (long_price short_price : ℚ) : ℚ :=
  if 0 < short_price then (long_price - short_price) / short_price else (1/100 : ℚ)

/-- Lines 343–348: breakeven days from total cost and daily yield. -/
def breakevenDays (total_cost daily_yield : ℚ) : ℚ :=
  if total_cost ≤ 0 then 0
  else if (1/1000000 : ℚ) < daily_yield then total_cost / daily_yield
  else 999

/-- `_scan_single_symbol`, as a pure function of the gathered venue data.
`Except.error` covers every path on which the Python function returns `None`
or raises inside its own `try` (`24 / funding_interval` with a zero interval
raises `ZeroDivisionError`, caught by the enclosing handler). -/
def scan_single_symbol (symbol : String) (env : ScanEnv) : Except String Opportunity :=
  let rates := ratesOf env
  let intervals := intervalsOf env
  if rates.length < 2 then .error "fewer than 2 usable rates" else
  let sorted_rates := List.insertionSort (fun a b : String × ℚ => a.2 ≤ b.2) rates
  match sorted_rates.head?, sorted_rates.getLast? with
  | some (min_ex, min_rate), some (max_ex, max_rate) =>
    let rate_diff := max_rate - min_rate
    let funding_interval : ℤ :=
      min ((intervals.lookup min_ex).getD 8) ((intervals.lookup max_ex).getD 8)
    if funding_interval = 0 then .error "ZeroDivisionError" else
    let times_per_day : ℚ := 24 / (funding_interval : ℚ)
    let apr := rate_diff * times_per_day * 365 * 100
    match env.book min_ex true, env.book max_ex false with
    | some long_book, some short_book =>
      let long_price := long_book.price
      let short_price := short_book.price
      let spread_cost := spreadCost long_price short_price
      let fee_cost := calculate_fees min_ex max_ex true
      let total_cost := spread_cost + fee_cost
      let daily_yield := rate_diff * times_per_day
      .ok {
        symbol := symbol
        long_ex := min_ex
        short_ex := max_ex
        long_price := long_price
        short_price := short_price
        apr := apr
        rate_diff := rate_diff
        funding_interval := funding_interval
        times_per_day := times_per_day
        spread := spread_cost * 100
        fees := fee_cost * 100
        total_cost := total_cost * 100
        breakeven_days := breakevenDays total_cost daily_yield
        depth := min long_book.depth short_book.depth }
    | _, _ => .error "orderbook unavailable"
  | _, _ => .error "unreachable: sorted rates empty"

/-- The hardcoded first element ('BTC/USDT') of `_generate_mock_opportunities`. -/
def mockBtc : Opportunity :=
  { symbol := "BTC/USDT"
    long_ex := "binance"
    short_ex := "bybit"
    long_price := (421505/10 : ℚ)
    short_price := (421482/10 : ℚ)
    apr := (129/5 : ℚ)
    rate_diff := (6/10000 : ℚ)
    funding_interval := 8
    times_per_day := 3
    spread := (5/1000 : ℚ)
    fees := (14/100 : ℚ)
    total_cost := (145/1000 : ℚ)
    breakeven_days := (8/10 : ℚ)
    depth := 8500000 }

/-- The hardcoded second element ('ETH/USDT') of `_generate_mock_opportunities`. -/
def mockEth : Opportunity :=
  { symbol := "ETH/USDT"
    long_ex := "okx"
    short_ex := "binance"
    long_price := (22458/10 : ℚ)
    short_price := (22455/10 : ℚ)
    apr := (91/5 : ℚ)
    rate_diff := (42/100000 : ℚ)
    funding_interval := 8
    times_per_day := 3
    spread := (13/1000 : ℚ)
    fees := (14/100 : ℚ)
    total_cost := (153/1000 : ℚ)
    breakeven_days := (12/10 : ℚ)
    depth := 3200000 }

/-- `_generate_mock_opportunities`: a fixed hardcoded list. -/
def mock_opportunities : List Opportunity := [mockBtc, mockEth]

/-- `scan_funding_opportunities`: in mock mode, return the canned list; else
scan every symbol of the universe, keep the successes (a failed symbol is
caught and excluded), and sort descending by `apr` (Python's stable
`sorted(..., reverse=True)`). `envs` supplies each symbol's gathered venue
data; `symbols` is the universe, in completion order of the outer fan-out. -/
def scan_funding_opportunities (use_mock : Bool) (envs : String → ScanEnv)
    (symbols : List String) : List Opportunity :=
  if use_mock then mock_opportunities
  else
    let opportunities := symbols.filterMap (fun s => (scan_single_symbol s (envs s)).toOption)
    List.insertionSort (fun a b : Opportunity => b.apr ≤ a.apr) opportunities

/-- A `ScanEnv` with no venue data at all. -/
def trivialEnv : ScanEnv := ⟨[], fun _ _ => none⟩

/-- Ticker entry as consumed by `get_top_volume_symbols`: the symbol string
and the `quoteVolume` field (absent ⇒ `t.get('quoteVolume', 0)` yields 0 and
the ticker is filtered out, so the sort key never hits a missing field). -/
structure Ticker where
  symbol : String
  quoteVolume : Option ℚ
deriving Repr, DecidableEq

/-- The filter of lines 103–109: quoted in USDT, no BUSD or dated-contract
look-alike substring, strictly positive reported quote volume. -/
def validTicker (t : Ticker) : Bool :=
  decide ("/USDT".data <:+: t.symbol.data) &&
  !decide ("BUSD".data <:+: t.symbol.data) &&
  !decide (":USDT".data <:+: t.symbol.data) &&
  decide (0 < t.quoteVolume.getD 0)

/-- The hardcoded fallback universe of `get_top_volume_symbols`. -/
def fallback_symbols : List String := ["BTC/USDT", "ETH/USDT"]

/-- `get_top_volume_symbols(limit)` on the non-mock, cache-miss path, as a
function of the reference venue query outcome (`fetch_tickers`, `.error` when
the venue is missing or the query raises): filter, sort descending by quote
volume (stable), truncate, project symbols; fallback list on failure. -/
def get_top_volume_symbols (limit : ℕ) (fetched : Except Unit (List Ticker)) : List String :=
  match fetched with
  | .error _ => fallback_symbols
  | .ok tickers =>
    let valid_tickers := tickers.filter validTicker
    let sorted_tickers :=
      List.insertionSort (fun a b : Ticker => b.quoteVolume.getD 0 ≤ a.quoteVolume.getD 0)
        valid_tickers
    (sorted_tickers.take limit).map (fun t => t.symbol)

/-! Helper lemmas shared by the claim theorems. -/

/-- Filtering the funding fan-out down to the usable rates only keeps keys of
the original venue list. -/
theorem ratesOf_keys_sublist (env : ScanEnv) :
    ((ratesOf env).map Prod.fst).Sublist (env.fundingResults.map Prod.fst) := by
  unfold ratesOf
  induction env.fundingResults with
  | nil => simp
  | cons p l ih =>
    cases hp : p.2 with
    | none => simpa [hp] using ih.cons p.1
    | some fi => simpa [hp] using ih.cons₂ p.1

instance : IsTotal (String × ℚ) (fun a b => a.2 ≤ b.2) :=
  ⟨fun a b => le_total a.2 b.2⟩

instance : IsTrans (String × ℚ) (fun a b => a.2 ≤ b.2) :=
  ⟨fun _ _ _ hab hbc => le_trans hab hbc⟩

/-- Inversion of a successful `_scan_single_symbol` run: each field of the
emitted opportunity, in terms of the gathered venue data. -/
theorem scan_single_ok_spec {symbol : String} {env : ScanEnv} {opp : Opportunity}
    (h : scan_single_symbol symbol env = .ok opp) :
    ∃ mn mx : String × ℚ, ∃ long_book short_book : BookTop,
      2 ≤ (ratesOf env).length ∧
      (List.insertionSort (fun a b : String × ℚ => a.2 ≤ b.2) (ratesOf env)).head? = some mn ∧
      (List.insertionSort (fun a b : String × ℚ => a.2 ≤ b.2) (ratesOf env)).getLast? = some mx ∧
      env.book mn.1 true = some long_book ∧
      env.book mx.1 false = some short_book ∧
      opp.symbol = symbol ∧
      opp.long_ex = mn.1 ∧
      opp.short_ex = mx.1 ∧
      opp.long_price = long_book.price ∧
      opp.short_price = short_book.price ∧
      opp.rate_diff = mx.2 - mn.2 ∧
      opp.funding_interval =
        min (((intervalsOf env).lookup mn.1).getD 8) (((intervalsOf env).lookup mx.1).getD 8) ∧
      opp.funding_interval ≠ 0 ∧
      opp.times_per_day = 24 / (opp.funding_interval : ℚ) ∧
      opp.apr = opp.rate_diff * opp.times_per_day * 365 * 100 ∧
      opp.spread = spreadCost long_book.price short_book.price * 100 ∧
      opp.fees = calculate_fees mn.1 mx.1 true * 100 ∧
      opp.total_cost =
        (spreadCost long_book.price short_book.price + calculate_fees mn.1 mx.1 true) * 100 ∧
      opp.breakeven_days =
        breakevenDays (spreadCost long_book.price short_book.price + calculate_fees mn.1 mx.1 true)
          (opp.rate_diff * opp.times_per_day) ∧
      opp.depth = min long_book.depth short_book.depth := by
  simp only [scan_single_symbol] at h
  split at h
  · exact absurd h (by simp)
  · split at h
    · rename_i min_ex min_rate max_ex max_rate hhead hlast
      split at h
      · exact absurd h (by simp)
      · split at h
        · rename_i long_book short_book hlong hshort
          rename_i hlen hzero
          refine ⟨(min_ex, min_rate), (max_ex, max_rate), long_book, short_book,
            by omega, hhead, hlast, hlong, hshort, ?_⟩
          cases h
          simp_all
        · exact absurd h (by simp)
    · exact absurd h (by simp)

/-- From a sorted (by rate) list of length ≥ 2 with distinct venue names:
the head and last entries have distinct names and ordered rates. -/
theorem head_getLast_of_sorted {l : List (String × ℚ)} {mn mx : String × ℚ}
    (hnd : (l.map Prod.fst).Nodup)
    (hs : l.Sorted (fun a b => a.2 ≤ b.2))
    (hlen : 2 ≤ l.length)
    (hhead : l.head? = some mn) (hlast : l.getLast? = some mx) :
    mn.1 ≠ mx.1 ∧ mn.2 ≤ mx.2 := by
  match l, hlen with
  | a :: b :: t, _ =>
    have hmn : mn = a := by simpa using hhead.symm
    subst hmn
    have hmx : mx ∈ b :: t := by
      refine List.mem_of_mem_getLast? ?_
      simpa [List.getLast?_cons_cons] using hlast
    have hrel : ∀ y ∈ b :: t, mn.2 ≤ y.2 := (List.sorted_cons.mp hs).1
    refine ⟨?_, hrel mx hmx⟩
    have hnotin : mn.1 ∉ (b :: t).map Prod.fst := (List.nodup_cons.mp hnd).1
    exact fun hcontra => hnotin (hcontra ▸ List.mem_map_of_mem Prod.fst hmx)

/-- C1: every emitted Opportunity has at least two venues with a usable
funding rate, a long venue distinct from the short venue, the long rate no
greater than the short rate, and a rate differential equal to short rate
minus long rate (hence non-negative).  The `Nodup` hypothesis states that the
venue names of the fan-out are distinct, as the keys of the Python `rates`
dict are. -/
theorem C1_opportunity_pair_invariants {symbol : String} {env : ScanEnv} {opp : Opportunity}
    (hnd : (env.fundingResults.map Prod.fst).Nodup)
    (h : scan_single_symbol symbol env = .ok opp) :
    2 ≤ (ratesOf env).length ∧
    opp.long_ex ≠ opp.short_ex ∧
    ∃ long_rate short_rate : ℚ,
      (opp.long_ex, long_rate) ∈ ratesOf env ∧
      (opp.short_ex, short_rate) ∈ ratesOf env ∧
      long_rate ≤ short_rate ∧
      opp.rate_diff = short_rate - long_rate ∧
      0 ≤ opp.rate_diff := by
  obtain ⟨mn, mx, lb, sb, hlen, hhead, hlast, -, -, -, hlong, hshort, -, -, hdiff, -⟩ :=
    scan_single_ok_spec h
  generalize hS : List.insertionSort (fun a b : String × ℚ => a.2 ≤ b.2) (ratesOf env) = S
    at hhead hlast
  have hperm : List.Perm S (ratesOf env) := hS ▸ List.perm_insertionSort _ _
  have hndr : ((ratesOf env).map Prod.fst).Nodup :=
    List.Nodup.sublist (ratesOf_keys_sublist env) hnd
  have hndS : (S.map Prod.fst).Nodup := ((hperm.map Prod.fst).nodup_iff).mpr hndr
  have hsorted : S.Sorted (fun a b : String × ℚ => a.2 ≤ b.2) :=
    hS ▸ List.sorted_insertionSort _ _
  have hlenS : 2 ≤ S.length := hperm.length_eq ▸ hlen
  obtain ⟨hne, hle⟩ := head_getLast_of_sorted hndS hsorted hlenS hhead hlast
  have hmnS : mn ∈ S := List.mem_of_mem_head? hhead
  have hmxS : mx ∈ S := List.mem_of_mem_getLast? hlast
  refine ⟨hlen, by rw [hlong, hshort]; exact hne, mn.2, mx.2, ?_, ?_, hle, ?_, ?_⟩
  · rw [hlong]; exact hperm.subset hmnS
  · rw [hshort]; exact hperm.subset hmxS
  · exact hdiff
  · rw [hdiff]; linarith

/-- Breakeven days is never negative. -/
theorem breakevenDays_nonneg (tc dy : ℚ) : 0 ≤ breakevenDays tc dy := by
  unfold breakevenDays
  split
  · exact le_refl 0
  · rename_i h0
    split
    · rename_i h1
      exact le_of_lt (div_pos (lt_of_not_le h0) (lt_trans (by norm_num) h1))
    · norm_num

/-- Breakeven days is zero exactly when the total cost is non-positive. -/
theorem breakevenDays_eq_zero_iff (tc dy : ℚ) : breakevenDays tc dy = 0 ↔ tc ≤ 0 := by
  unfold breakevenDays
  split
  · rename_i h0; simpa using h0
  · rename_i h0
    split
    · rename_i h1
      have hpos : 0 < tc / dy :=
        div_pos (lt_of_not_le h0) (lt_trans (by norm_num) h1)
      exact ⟨fun he => absurd he (ne_of_gt hpos), fun hle => absurd hle h0⟩
    · exact ⟨fun he => absurd he (by norm_num), fun hle => absurd hle h0⟩

/-- With positive total cost and a daily yield above the threshold, breakeven
days is the quotient. -/
theorem breakevenDays_div {tc dy : ℚ} (h1 : 0 < tc) (h2 : (1/1000000 : ℚ) < dy) :
    breakevenDays tc dy = tc / dy := by
  unfold breakevenDays
  rw [if_neg (not_le.mpr h1), if_pos h2]

/-- With positive total cost and a negligible daily yield, breakeven days is
the 999 sentinel. -/
theorem breakevenDays_sentinel {tc dy : ℚ} (h1 : 0 < tc) (h2 : dy ≤ (1/1000000 : ℚ)) :
    breakevenDays tc dy = 999 := by
  unfold breakevenDays
  rw [if_neg (not_le.mpr h1), if_neg (not_lt.mpr h2)]

/-- C2: for every emitted Opportunity, breakeven days is non-negative and is
zero iff the total cost is non-positive; when the total cost is positive it
equals total cost (as a fraction, i.e. the percent field divided by 100)
divided by the daily yield if that yield exceeds the `0.000001` threshold,
and the `999` sentinel otherwise. -/
theorem C2_breakeven_days {symbol : String} {env : ScanEnv} {opp : Opportunity}
    (h : scan_single_symbol symbol env = .ok opp) :
    0 ≤ opp.breakeven_days ∧
    (opp.breakeven_days = 0 ↔ opp.total_cost ≤ 0) ∧
    (0 < opp.total_cost → (1/1000000 : ℚ) < opp.rate_diff * opp.times_per_day →
      opp.breakeven_days = (opp.total_cost / 100) / (opp.rate_diff * opp.times_per_day)) ∧
    (0 < opp.total_cost → opp.rate_diff * opp.times_per_day ≤ (1/1000000 : ℚ) →
      opp.breakeven_days = 999) := by
  obtain ⟨mn, mx, lb, sb, -, -, -, -, -, -, -, -, -, -, -, -, -, -, -, -, -, htc, hbe, -⟩ :=
    scan_single_ok_spec h
  rw [htc, hbe]
  refine ⟨breakevenDays_nonneg _ _, ?_, ?_, ?_⟩
  · rw [breakevenDays_eq_zero_iff]
    constructor
    · intro hle; nlinarith
    · intro hle; nlinarith
  · intro hpos hy
    have hfrac : 0 < spreadCost lb.price sb.price + calculate_fees mn.1 mx.1 true := by
      nlinarith
    rw [breakevenDays_div hfrac hy, mul_div_assoc]
    norm_num
  · intro hpos hy
    have hfrac : 0 < spreadCost lb.price sb.price + calculate_fees mn.1 mx.1 true := by
      nlinarith
    exact breakevenDays_sentinel hfrac hy

/-- C3: the settlement interval of an emitted Opportunity is the minimum of
the two chosen venues' intervals (with the `8`-hour default when absent),
settlements per day are `24 / interval`, and the annualized return is
`rate differential × settlements per day × 365 × 100`. -/
theorem C3_annualized_return {symbol : String} {env : ScanEnv} {opp : Opportunity}
    (h : scan_single_symbol symbol env = .ok opp) :
    opp.funding_interval =
      min (((intervalsOf env).lookup opp.long_ex).getD 8)
        (((intervalsOf env).lookup opp.short_ex).getD 8) ∧
    opp.times_per_day = 24 / (opp.funding_interval : ℚ) ∧
    opp.apr = opp.rate_diff * opp.times_per_day * 365 * 100 := by
  obtain ⟨mn, mx, lb, sb, -, -, -, -, -, -, hlong, hshort, -, -, -, hint, -, htpd, hapr, -⟩ :=
    scan_single_ok_spec h
  exact ⟨by rw [hlong, hshort, hint], htpd, hapr⟩

/-- The end-to-end scenario of the spec: two venues quoting funding rates
0.0001 and 0.0006 at 8-hour intervals, both books at price 100. -/
def envC3 : ScanEnv :=
  { fundingResults := [("binance", some ⟨1/10000, 8⟩), ("bybit", some ⟨6/10000, 8⟩)]
    book := fun _ _ => some ⟨100, 1, 1000⟩ }

/-- The opportunity `_scan_single_symbol` emits on `envC3`: in particular the
annualized return is `(0.0006 − 0.0001) × 3 × 365 × 100 = 54.75`. -/
def oppC3 : Opportunity :=
  { symbol := "BTC/USDT", long_ex := "binance", short_ex := "bybit",
    long_price := 100, short_price := 100, apr := 219/4, rate_diff := 1/2000,
    funding_interval := 8, times_per_day := 3, spread := 0, fees := 7/50,
    total_cost := 7/50, breakeven_days := 14/15, depth := 1000 }

/-- Witness for C3 at the spec's end-to-end scenario, checking the claimed
`54.75` annualized return (`219/4 = 5475/100`). -/
theorem C3_witness :
    scan_single_symbol "BTC/USDT" envC3 = .ok oppC3 ∧
    oppC3.apr = 5475/100 ∧
    (oppC3.funding_interval =
      min (((intervalsOf envC3).lookup oppC3.long_ex).getD 8)
        (((intervalsOf envC3).lookup oppC3.short_ex).getD 8) ∧
    oppC3.times_per_day = 24 / (oppC3.funding_interval : ℚ) ∧
    oppC3.apr = oppC3.rate_diff * oppC3.times_per_day * 365 * 100) :=
  ⟨rfl, by decide, C3_annualized_return rfl⟩

/-- Witness for C2 at the same scenario (total cost `0.14% > 0`, daily yield
`0.0015`, breakeven `14/15` days). -/
theorem C2_witness :
    (0 ≤ oppC3.breakeven_days ∧
    (oppC3.breakeven_days = 0 ↔ oppC3.total_cost ≤ 0) ∧
    (0 < oppC3.total_cost → (1/1000000 : ℚ) < oppC3.rate_diff * oppC3.times_per_day →
      oppC3.breakeven_days = (oppC3.total_cost / 100) / (oppC3.rate_diff * oppC3.times_per_day)) ∧
    (0 < oppC3.total_cost → oppC3.rate_diff * oppC3.times_per_day ≤ (1/1000000 : ℚ) →
      oppC3.breakeven_days = 999)) ∧
    0 < oppC3.total_cost ∧ (1/1000000 : ℚ) < oppC3.rate_diff * oppC3.times_per_day :=
  ⟨@C2_breakeven_days "BTC/USDT" envC3 oppC3 rfl, by decide, by decide⟩

/-- C4: the scan operation is total: an empty instrument universe yields the
empty list (not an error), and a symbol whose processing ends in an error —
any caught exception or `None` return — is excluded from the result without
affecting the other symbols. -/
theorem C4_scan_error_containment :
    (∀ envs : String → ScanEnv, scan_funding_opportunities false envs [] = []) ∧
    (∀ (envs : String → ScanEnv) (pre : List String) (s : String) (post : List String)
      (e : String), scan_single_symbol s (envs s) = .error e →
      scan_funding_opportunities false envs (pre ++ s :: post) =
        scan_funding_opportunities false envs (pre ++ post)) := by
  constructor
  · intro envs
    simp [scan_funding_opportunities]
  · intro envs pre s post e he
    simp [scan_funding_opportunities, List.filterMap_append, List.filterMap_cons, he,
      Except.toOption]

/-- Witness for C4: a symbol with no usable venue data is dropped and the
empty universe scans to the empty list. -/
theorem C4_witness :
    scan_funding_opportunities false (fun _ => trivialEnv) (["BTC/USDT"] ++ "ETH/USDT" :: []) =
      scan_funding_opportunities false (fun _ => trivialEnv) (["BTC/USDT"] ++ []) ∧
    scan_funding_opportunities false (fun _ => trivialEnv) [] = [] :=
  ⟨C4_scan_error_containment.2 (fun _ => trivialEnv) ["BTC/USDT"] "ETH/USDT" []
      "fewer than 2 usable rates" rfl,
    C4_scan_error_containment.1 (fun _ => trivialEnv)⟩

/-- One `recordDiff` step keeps the window within its 50-entry capacity. -/
theorem recordDiff_length {w : List ℚ} (d : ℚ) (hw : w.length ≤ 50) :
    (recordDiff w d).length ≤ 50 := by
  simp only [recordDiff, List.length_append, List.length_cons]
  split <;> simp <;> omega

/-- Folding `recordDiff` keeps the most recent 50 entries: the result is the
suffix of the combined stream after dropping all but the last 50 elements. -/
theorem foldl_recordDiff (l : List ℚ) :
    ∀ w : List ℚ, w.length ≤ 50 →
      List.foldl recordDiff w l = (w ++ l).drop (w.length + l.length - 50) := by
  induction l with
  | nil =>
    intro w hw
    simp [Nat.sub_eq_zero_of_le hw]
  | cons d l ih =>
    intro w hw
    rw [List.foldl_cons]
    by_cases hc : 50 < w.length + 1
    · have hw50 : w.length = 50 := by omega
      have hrec : recordDiff w d = (w ++ [d]).drop 1 := by
        simp only [recordDiff, List.length_append, List.length_cons]
        rw [if_pos (by simpa using hc)]
      obtain ⟨a, w', rfl⟩ : ∃ a w', w = a :: w' := by
        cases w with
        | nil => simp at hw50
        | cons a w' => exact ⟨a, w', rfl⟩
      have hlen' : w'.length = 49 := by simpa using hw50
      rw [hrec]
      have h1 : ((a :: w') ++ [d]).drop 1 = w' ++ [d] := by simp
      rw [h1, ih (w' ++ [d]) (by simp [hlen'])]
      have h2 : (w' ++ [d]) ++ l = w' ++ d :: l := by simp
      have h3 : (a :: w') ++ d :: l = a :: (w' ++ d :: l) := by simp
      rw [h2, h3]
      have h4 : (a :: w').length + (d :: l).length - 50 = l.length + 1 := by
        simp [hlen']
      have h5 : (w' ++ [d]).length + l.length - 50 = l.length := by
        simp [hlen']
      rw [h4, h5, List.drop_succ_cons]
    · have hrec : recordDiff w d = w ++ [d] := by
        simp only [recordDiff, List.length_append, List.length_cons]
        rw [if_neg (by simpa using hc)]
      rw [hrec, ih (w ++ [d]) (by simp; omega)]
      have h2 : (w ++ [d]) ++ l = w ++ d :: l := by simp
      rw [h2]
      have h4 : (w ++ [d]).length + l.length - 50 = w.length + (d :: l).length - 50 := by
        simp; omega
      rw [h4]

/-- C5: the history window never exceeds 50 entries, and eviction is FIFO:
recording 51 differentials into an initially empty window leaves exactly the
last 50, i.e. the original stream with its first element dropped. -/
theorem C5_history_window :
    (∀ (w : List ℚ) (d : ℚ), w.length ≤ 50 → (recordDiff w d).length ≤ 50) ∧
    (∀ l : List ℚ, l.length = 51 → List.foldl recordDiff [] l = l.drop 1) := by
  constructor
  · intro w d hw
    exact recordDiff_length d hw
  · intro l hl
    rw [foldl_recordDiff l [] (by simp)]
    simp [hl]

/-- Witness for C5 on a concrete 51-element stream. -/
theorem C5_witness :
    (recordDiff (List.replicate 50 (0:ℚ)) 1).length ≤ 50 ∧
    List.foldl recordDiff [] (List.replicate 51 (0:ℚ)) =
      (List.replicate 51 (0:ℚ)).drop 1 :=
  ⟨C5_history_window.1 (List.replicate 50 (0:ℚ)) 1 (by simp),
    C5_history_window.2 (List.replicate 51 (0:ℚ)) (by simp)⟩

/-- C6 counterexample: the claim says the reported volatility equals the
*sample* standard deviation once the window holds at least 6 samples, but
`np.std` (with its default `ddof = 0`) computes the population standard
deviation.  On the 6-sample window `[0,0,0,0,0,6]` the code's volatility is
`√(npStdSq) = √5` while the sample standard deviation is `√6`. -/
theorem C6_counterexample :
    ([0, 0, 0, 0, 0, 6] : List ℚ).length = 6 ∧
    sigmaSq [0, 0, 0, 0, 0, 6] = 5 ∧
    sampleVariance_spec [0, 0, 0, 0, 0, 6] = 6 ∧
    Real.sqrt ((sigmaSq [0, 0, 0, 0, 0, 6] : ℚ) : ℝ) ≠
      Real.sqrt ((sampleVariance_spec [0, 0, 0, 0, 0, 6] : ℚ) : ℝ) := by
  have h1 : sigmaSq [0, 0, 0, 0, 0, 6] = 5 := by decide
  have h2 : sampleVariance_spec [0, 0, 0, 0, 0, 6] = 6 := by decide
  refine ⟨rfl, h1, h2, ?_⟩
  rw [h1, h2]
  push_cast
  exact ne_of_lt (Real.sqrt_lt_sqrt (by norm_num) (by norm_num))

/-- C6 amended: the reported volatility is the fixed `0.0001` placeholder
(squared here) for windows of fewer than 6 samples, and the *population*
(`ddof = 0`, i.e. `np.std`) standard deviation for windows of at least 6
samples; in particular a constant window of ≥ 6 samples reports volatility
zero. -/
theorem C6_volatility_amended :
    (∀ w : List ℚ, w.length ≤ 5 → sigmaSq w = (1/10000 : ℚ) ^ 2) ∧
    (∀ w : List ℚ, 5 < w.length → sigmaSq w = npStdSq w) ∧
    (∀ (c : ℚ) (n : ℕ), 5 < n → sigmaSq (List.replicate n c) = 0) := by
  refine ⟨?_, ?_, ?_⟩
  · intro w hw
    rw [sigmaSq, if_neg (by omega)]
  · intro w hw
    rw [sigmaSq, if_pos hw]
  · intro c n hn
    rw [sigmaSq, if_pos (by simpa using hn)]
    simp only [npStdSq, List.length_replicate, List.sum_replicate, List.map_replicate,
      nsmul_eq_mul, smul_eq_mul]
    have hn0 : (n : ℚ) ≠ 0 := Nat.cast_ne_zero.mpr (by omega)
    rw [mul_div_cancel_left₀ c hn0]
    simp

/-- Witness for the amended C6: a short window reports the placeholder, a
constant 7-sample window reports zero volatility. -/
theorem C6_amended_witness :
    sigmaSq [1, 2, 3] = (1/10000 : ℚ) ^ 2 ∧
    sigmaSq (List.replicate 7 (2:ℚ)) = 0 :=
  ⟨C6_volatility_amended.1 [1, 2, 3] (by simp),
    C6_volatility_amended.2.2 2 7 (by norm_num)⟩

/-- C7: total fee cost under the mixed open-taker/close-maker composition is
`longTaker + shortTaker + longMaker + shortMaker`, the selectable all-taker
variant is `2 × longTaker + 2 × shortTaker`, and an unknown venue falls back
to the default maker/taker pair (0.0002, 0.0005).  Concretely the
binance/bybit mixed fee is 0.0014 and an unknown-venue/bybit all-taker fee
is 0.0022. -/
theorem C7_fee_composition :
    (∀ long_ex short_ex : String,
      calculate_fees long_ex short_ex true =
        ((FEE_SCHEDULE long_ex).getD feeDefault).2 +
        ((FEE_SCHEDULE short_ex).getD feeDefault).2 +
        ((FEE_SCHEDULE long_ex).getD feeDefault).1 +
        ((FEE_SCHEDULE short_ex).getD feeDefault).1) ∧
    (∀ long_ex short_ex : String,
      calculate_fees long_ex short_ex false =
        2 * ((FEE_SCHEDULE long_ex).getD feeDefault).2 +
        2 * ((FEE_SCHEDULE short_ex).getD feeDefault).2) ∧
    (∀ v : String, FEE_SCHEDULE v = none →
      (FEE_SCHEDULE v).getD feeDefault = ((2/10000 : ℚ), (5/10000 : ℚ))) ∧
    calculate_fees "binance" "bybit" true = 14/10000 ∧
    calculate_fees "kraken" "bybit" false = 22/10000 := by
  refine ⟨?_, ?_, ?_, by decide, by decide⟩
  · intro long_ex short_ex
    simp [calculate_fees]
  · intro long_ex short_ex
    simp [calculate_fees]
    ring
  · intro v hv
    rw [hv]
    rfl

/-- Witness for C7's unknown-venue fallback conjunct. -/
theorem C7_witness :
    (FEE_SCHEDULE "kraken").getD feeDefault = ((2/10000 : ℚ), (5/10000 : ℚ)) :=
  C7_fee_composition.2.2.1 "kraken" rfl

instance : IsTotal Opportunity (fun a b => b.apr ≤ a.apr) :=
  ⟨fun a b => le_total b.apr a.apr⟩

instance : IsTrans Opportunity (fun a b => b.apr ≤ a.apr) :=
  ⟨fun _ _ _ hab hbc => le_trans hbc hab⟩

/-- C8: the list returned by a scan is sorted in descending order of the
annualized-return field (in both the engine path and the mock path). -/
theorem C8_sorted_by_apr (use_mock : Bool) (envs : String → ScanEnv)
    (symbols : List String) :
    (scan_funding_opportunities use_mock envs symbols).Sorted
      (fun a b => b.apr ≤ a.apr) := by
  unfold scan_funding_opportunities
  split
  · simp [mock_opportunities, List.Sorted]
    decide
  · exact List.sorted_insertionSort _ _

instance : IsTotal Ticker (fun a b => b.quoteVolume.getD 0 ≤ a.quoteVolume.getD 0) :=
  ⟨fun a b => le_total (b.quoteVolume.getD 0) (a.quoteVolume.getD 0)⟩

instance : IsTrans Ticker (fun a b => b.quoteVolume.getD 0 ≤ a.quoteVolume.getD 0) :=
  ⟨fun _ _ _ hab hbc => le_trans hbc hab⟩

/-- C9: for any limit, the universe selector returns symbols of tickers that
are quoted in USDT, exclude the BUSD / dated-contract look-alikes, and have
strictly positive quote volume, in descending quote-volume order and with at
most `limit` entries; a failed reference-venue query returns the hardcoded
fallback list. -/
theorem C9_universe_selector :
    (∀ (limit : ℕ) (tickers : List Ticker),
      ∃ ts : List Ticker,
        get_top_volume_symbols limit (.ok tickers) = ts.map (fun t => t.symbol) ∧
        ts.length ≤ limit ∧
        (∀ t ∈ ts, t ∈ tickers ∧
          ("/USDT".data <:+: t.symbol.data) ∧
          ¬("BUSD".data <:+: t.symbol.data) ∧
          ¬(":USDT".data <:+: t.symbol.data) ∧
          0 < t.quoteVolume.getD 0) ∧
        (ts.map (fun t => t.quoteVolume.getD 0)).Sorted (fun a b : ℚ => b ≤ a)) ∧
    (∀ limit : ℕ, get_top_volume_symbols limit (.error ()) = fallback_symbols) := by
  constructor
  · intro limit tickers
    refine ⟨(List.insertionSort
        (fun a b : Ticker => b.quoteVolume.getD 0 ≤ a.quoteVolume.getD 0)
        (tickers.filter validTicker)).take limit, rfl, ?_, ?_, ?_⟩
    · simp [List.length_take_le]
    · intro t ht
      have htS : t ∈ List.insertionSort
          (fun a b : Ticker => b.quoteVolume.getD 0 ≤ a.quoteVolume.getD 0)
          (tickers.filter validTicker) := (List.take_sublist _ _).subset ht
      have htF : t ∈ tickers.filter validTicker :=
        (List.perm_insertionSort _ _).subset htS
      obtain ⟨htm, htv⟩ := List.mem_filter.mp htF
      refine ⟨htm, ?_⟩
      simpa [validTicker, decide_eq_true_eq, and_assoc] using htv
    · have hsorted : (List.insertionSort
          (fun a b : Ticker => b.quoteVolume.getD 0 ≤ a.quoteVolume.getD 0)
          (tickers.filter validTicker)).Sorted
          (fun a b : Ticker => b.quoteVolume.getD 0 ≤ a.quoteVolume.getD 0) :=
        List.sorted_insertionSort _ _
      have htake := hsorted.sublist (List.take_sublist limit _)
      exact List.Pairwise.map (fun t : Ticker => t.quoteVolume.getD 0)
        (fun a b hab => hab) htake
  · intro limit
    rfl

/-- A concrete ticker set for the C9 witness. -/
def demoTickers : List Ticker :=
  [⟨"BTC/USDT", some 10⟩, ⟨"ETH/USDT:USDT", some 50⟩, ⟨"XBUSD/USDT", some 5⟩,
    ⟨"SOL/USDT", some 99⟩, ⟨"ADA/USDT", none⟩, ⟨"DOGE/USDT", some 20⟩]

/-- Witness for C9: the fallback branch at a concrete limit, plus concrete
filtering/ordering/truncation behaviour. -/
theorem C9_witness :
    get_top_volume_symbols 5 (.error ()) = fallback_symbols ∧
    get_top_volume_symbols 2 (.ok demoTickers) = ["SOL/USDT", "DOGE/USDT"] :=
  ⟨C9_universe_selector.2 5, by decide⟩

/-- C10 counterexample: the claim says mock mode runs the same scanning and
ranking engine over synthetic quotes, differing from online mode only in the
data source.  But mock mode returns a hardcoded list whose first entry
violates the engine's annualization identity
`apr = rate_diff × times_per_day × 365 × 100` (which `C3_annualized_return`
proves for every engine-emitted Opportunity): the entry carries
`apr = 25.8` while its own fields give `0.0006 × 3 × 365 × 100 = 65.7`.
So the mock output cannot arise from the engine on any data source. -/
theorem C10_counterexample :
    (scan_funding_opportunities true (fun _ => trivialEnv) ["BTC/USDT"]).head? =
      some mockBtc ∧
    mockBtc.apr = 129/5 ∧
    mockBtc.rate_diff * mockBtc.times_per_day * 365 * 100 = 657/10 ∧
    mockBtc.apr ≠ mockBtc.rate_diff * mockBtc.times_per_day * 365 * 100 :=
  ⟨rfl, rfl, by decide, by decide⟩

/-- C10 amended: when the mock flag is chosen, the scan operation returns the
fixed hardcoded two-element list of synthetic opportunities — deterministic
and independent of all venue data and of the symbol universe (hence no
network access) — instead of running the scanning and ranking engine. -/
theorem C10_mock_mode (envs : String → ScanEnv) (symbols : List String) :
    scan_funding_opportunities true envs symbols = mock_opportunities := rfl

/-- Witness for C1 at the concrete two-venue scenario. -/
theorem C1_witness :
    (envC3.fundingResults.map Prod.fst).Nodup ∧
    (2 ≤ (ratesOf envC3).length ∧
    oppC3.long_ex ≠ oppC3.short_ex ∧
    ∃ long_rate short_rate : ℚ,
      (oppC3.long_ex, long_rate) ∈ ratesOf envC3 ∧
      (oppC3.short_ex, short_rate) ∈ ratesOf envC3 ∧
      long_rate ≤ short_rate ∧
      oppC3.rate_diff = short_rate - long_rate ∧
      0 ≤ oppC3.rate_diff) :=
  ⟨by decide,
    @C1_opportunity_pair_invariants "BTC/USDT" envC3 oppC3 (by decide) rfl⟩
